import Mathlib

set_option autoImplicit false

/-!
Verification of the blogger static-site compiler: front-matter parsing,
change detection, the aggregate render phase, the directory scanner,
publish/draft lifecycle naming, and the per-post render phase, modelled
as a shallow embedding of the Python source.
-/

/-- Python `source_text.split("---")`, specialised to the literal
three-dash delimiter used by `serialize_post` (greedy, left-to-right,
non-overlapping, exactly like `str.split`). -/
def pySplit3 : List Char → List (List Char)
  | '-' :: '-' :: '-' :: rest => [] :: pySplit3 rest
  | x :: xs =>
    match pySplit3 xs with
    | [] => [[x]]
    | s :: ss => (x :: s) :: ss
  | [] => [[]]

/-- Python `source_text.count("---")`: the number of greedy, left-to-right,
non-overlapping occurrences of the three-dash delimiter. -/
def countDashes : List Char → Nat
  | '-' :: '-' :: '-' :: rest => countDashes rest + 1
  | _ :: xs => countDashes xs
  | [] => 0

/-- Joins segments back together with a separator between them;
used to state that `pySplit3` really is a split on the delimiter. -/
def joinSep (sep : List Char) : List (List Char) → List Char
  | [] => []
  | [x] => x
  | x :: y :: ys => x ++ sep ++ joinSep sep (y :: ys)

/-- The loosely-typed metadata mapping parsed from the YAML front matter:
an ordered association of string keys to (string-rendered) values. -/
abbrev Metadata := List (String × String)

/-- The `Post` record constructed by `serialize_post`
(`rendered_text` starts out empty, `html` is set later). -/
structure Post where
  source_text : List Char
  front_matter : Option (List Char)
  body_text : List Char
  metadata : Option Metadata
  rendered_text : List Char
deriving Repr, DecidableEq

/-- `serialize_post(source_text)` from `src/blogger/blogger.py` lines 93-106.
`load_all` models the external YAML loader applied to the original,
undivided text (`next(load_all(source_text))`); an `Except.error` models the
parser raising, which the source catches, logs, and turns into `metadata = None`. -/
def serialize_post (load_all : List Char → Except String Metadata)
    (source_text : List Char) : Post :=
  let yaml_docs := pySplit3 source_text
  let front_matter : Option (List Char) :=
    if yaml_docs.length > 2 then some (yaml_docs.getD 1 []) else none
  let body_text : List Char :=
    if yaml_docs.length > 2 then (yaml_docs.drop 2).flatten else source_text
  let metadata : Option Metadata :=
    match load_all source_text with
    | Except.ok m => some m
    | Except.error _ => none
  ⟨source_text, front_matter, body_text, metadata, []⟩

/-- A YAML loader that always raises (any concrete loader works for the
front-matter/body claims, which do not depend on the loader). -/
def loadFail : List Char → Except String Metadata := fun _ => Except.error "err"

/-- The text `a---b---c`: the delimiter occurs exactly twice in it. -/
def exTwoDashes : List Char := ['a', '-', '-', '-', 'b', '-', '-', '-', 'c']

/-- Python's `\w` restricted to ASCII: letters, digits and underscore
(the titles handled by the claims are ASCII). -/
def isWordChar (c : Char) : Bool := c.isAlphanum || c = '_'

/-- Python's `\s` whitespace class restricted to ASCII. -/
def isPySpace (c : Char) : Bool :=
  c = ' ' || c = '\t' || c = '\n' || c = '\x0b' || c = '\x0c' || c = '\r'

/-- The character class KEPT by `re.sub(r"[^\w|^\-\s]", "", title)`
(blogger.py lines 414-415): the negated set `[^\w|^\-\s]` matches anything
that is not a word character, `|`, `^`, `-` or whitespace, and `re.sub`
deletes those matches, keeping exactly this class. -/
def keptBySub (c : Char) : Bool :=
  isWordChar c || c = '|' || c = '^' || c = '-' || isPySpace c

/-- Python `str.replace` for a single-character pattern. -/
def pyReplace (a b : Char) (l : List Char) : List Char :=
  l.map fun c => if c = a then b else c

/-- The slug computation of `Main.post` (blogger.py lines 413-415):
`title.lower().replace(" ", "-")` then `re.sub(r"[^\w|^\-\s]", "", title)`. -/
def slugify (title : List Char) : List Char :=
  (pyReplace ' ' '-' (title.map Char.toLower)).filter keptBySub

/-- The derived published file name `{date}-{slugified-title}.md`
(blogger.py line 416). -/
def derived_filename (d : List Char) (title : List Char) : List Char :=
  d ++ ['-'] ++ slugify title ++ ['.', 'm', 'd']

/-- Outcome of the final write step of `Main.post` (blogger.py lines
416-432): the files written into the posts directory, whether the source
draft was deleted, and whether the operation exited fatally. -/
structure PublishOutcome where
  writes : List (List Char × List Char)
  draft_deleted : Bool
  fatal : Bool
deriving Repr, DecidableEq

/-- The write step of `Main.post`: if the derived file name already exists
in the posts directory, the operation logs and calls `sys.exit(1)` before
opening any file; otherwise the post is written and the draft is deleted
only when the user confirms. -/
def publish_write (existing : List (List Char)) (fname : List Char)
    (content : List Char) (delete_answer : Bool) : PublishOutcome :=
  if fname ∈ existing then ⟨[], false, true⟩
  else ⟨[(fname, content)], delete_answer, false⟩

/-- Most-significant-first decimal digit characters of `n`, mirroring the
structure of core's `Nat.toDigitsCore` at base 10 (proved equal below). -/
def decDigits (n : Nat) : List Char :=
  if n / 10 = 0 then [Nat.digitChar (n % 10)]
  else decDigits (n / 10) ++ [Nat.digitChar (n % 10)]
termination_by n
decreasing_by
  exact Nat.div_lt_self (by omega) (by omega)

/-- Numeric value of a decimal digit character. -/
def digitVal (c : Char) : Nat := c.toNat - 48

/-- Value of a most-significant-first decimal digit string. -/
def decValue (l : List Char) : Nat :=
  l.foldl (fun acc c => 10 * acc + digitVal c) 0

/-- Python `str(index)`: the decimal representation as a char list. -/
def natChars (n : Nat) : List Char := (Nat.repr n).toList

/-- Candidate draft file name for attempt `k` (blogger.py lines 443-451):
attempt 0 is `{today}-{title}.md`, attempt `k+1` is `{today}-{title}(k+1).md`. -/
def draft_cand (today title : List Char) : Nat → List Char
  | 0 => today ++ ['-'] ++ title ++ ['.', 'm', 'd']
  | Nat.succ k =>
    today ++ ['-'] ++ title ++ ['('] ++ natChars (k + 1) ++ [')'] ++ ['.', 'm', 'd']

/-- The collision loop of `Main.draft` (blogger.py lines 447-451) with
explicit fuel: starting from attempt `k`, return the first candidate name
not already present in the drafts directory. -/
def draft_loop (existing : List (List Char)) (today title : List Char) :
    Nat → Nat → Option (List Char)
  | 0, _ => none
  | fuel + 1, k =>
    if draft_cand today title k ∈ existing then
      draft_loop existing today title fuel (k + 1)
    else some (draft_cand today title k)

/-- The name of the file created by `Main.draft`. The Python loop is
unbounded; `existing.length + 1` attempts always suffice (proved below), so
this fuel makes the embedding total without changing behaviour. -/
def draft_name (existing : List (List Char)) (today title : List Char) :
    Option (List Char) :=
  draft_loop existing today title (existing.length + 1) 0

/-- The pre-filled front matter written into a new draft
(blogger.py lines 439-442). -/
def draft_frontmatter (today title : List Char) : List Char :=
  "---\ndate: ".toList ++ today ++ "\ntitle: \"".toList ++ title ++ "\"\n---".toList

/-- `Main.draft` (blogger.py lines 434-454): the created file, as the pair
of its name and its front-matter content. -/
def draft_create (existing : List (List Char)) (today title : List Char) :
    Option (List Char × List Char) :=
  (draft_name existing today title).map fun nm => (nm, draft_frontmatter today title)

/-- Whether any user extension instance's `should_skip_template` hook
answers true for template `nm` (blogger.py lines 255-261: every hook result
is collected into a list and `any` of them skips the template). -/
def should_skip_template {N : Type} (exts : List (N → Bool)) (nm : N) : Bool :=
  exts.any fun e => e nm

/-- The aggregate phase of `Main.compile` (blogger.py lines 253-271): for
each discovered template, if any extension skips it, nothing is rendered or
written for it; otherwise the template is rendered with the site config and
the full posts list as context and written at the template's relative path
under the output root. Returns the (relative path, rendered content) writes
in template order. -/
def aggregate_phase {N S P C : Type} (exts : List (N → Bool)) (site : S)
    (posts : List P) (render : N → S → List P → C) :
    List N → List (N × C)
  | [] => []
  | nm :: rest =>
    if should_skip_template exts nm then
      aggregate_phase exts site posts render rest
    else (nm, render nm site posts) :: aggregate_phase exts site posts render rest

/-- `Except.isOk` (a phase completing without raising). -/
def exceptOk {ε α : Type} : Except ε α → Bool
  | Except.ok _ => true
  | Except.error _ => false

/-- Truthiness of an optional Python dict (`if post.metadata:` on line 227):
`None` and the empty dict are falsy. -/
def pyTruthy : Option Metadata → Bool
  | none => false
  | some m => !m.isEmpty

/-- Python `"title" in post.metadata` (line 243): key membership, raising
`TypeError` when the metadata is `None`. -/
def pyContains (key : String) : Option Metadata → Except Unit Bool
  | none => Except.error ()
  | some m => Except.ok (m.any fun kv => kv.1 == key)

/-- Python `post.metadata.items()` (line 248): raises on `None`. -/
def pyItems : Option Metadata → Except Unit Metadata
  | none => Except.error ()
  | some m => Except.ok m

/-- Dict lookup (used only where the source has checked the key exists). -/
def getMeta (m : Metadata) (key : String) : String :=
  match m.find? (fun kv => kv.1 == key) with
  | some kv => kv.2
  | none => ""

/-- Python `str.strip(chars)`: removes characters drawn from the given SET
from both ends (so `post.name.strip(".md")` strips any of `.`, `m`, `d`). -/
def pyStripChars (l : List Char) (cs : List Char) : List Char :=
  ((l.dropWhile fun c => cs.contains c).reverse.dropWhile fun c => cs.contains c).reverse

/-- A post after the per-post render phase. -/
structure RenderedPost where
  rendered_text : List Char
  html : List Char
  name : List Char
  toc : List Char
  fields : Metadata

/-- The per-post phase body of `Main.compile` for one post (blogger.py lines
222-252). Template expansion and markdown conversion are the abstract
external functions `renderWithMeta`, `renderPlain` and `mdConvert` (jinja
and the markdown library, with the site config absorbed); the unguarded
`"title" in post.metadata` on line 243 (and `post.metadata.items()` on line
248) raises `TypeError` when the metadata is absent. -/
def render_post (renderWithMeta : List Char → Metadata → List Char)
    (renderPlain : List Char → List Char) (mdConvert : List Char → List Char)
    (name : List Char) (post : Post) : Except Unit RenderedPost :=
  let rendered_text :=
    if pyTruthy post.metadata then
      renderWithMeta post.body_text (post.metadata.getD [])
    else renderPlain post.body_text
  let html := mdConvert rendered_text
  match pyContains "title" post.metadata with
  | Except.error e => Except.error e
  | Except.ok hasTitle =>
    let toc :=
      if hasTitle then pyReplace ' ' '-' (getMeta (post.metadata.getD []) "title").toList
      else pyReplace ' ' '-' (pyStripChars name ['.', 'm', 'd'])
    match pyItems post.metadata with
    | Except.error e => Except.error e
    | Except.ok fields => Except.ok ⟨rendered_text, html, name, toc, fields⟩

/-- The per-post loop of `Main.compile` over the scanned posts mapping;
the first raising post aborts the whole phase (and hence the cycle). -/
def render_posts (renderWithMeta : List Char → Metadata → List Char)
    (renderPlain : List Char → List Char) (mdConvert : List Char → List Char) :
    List (List Char × Post) → Except Unit (List RenderedPost)
  | [] => Except.ok []
  | (nm, p) :: rest =>
    match render_post renderWithMeta renderPlain mdConvert nm p with
    | Except.error e => Except.error e
    | Except.ok r =>
      match render_posts renderWithMeta renderPlain mdConvert rest with
      | Except.error e => Except.error e
      | Except.ok rs => Except.ok (r :: rs)

/-- A file yielded by the `glob("**/*")` walk of `DirectoryWatcher.dirty`:
its absolute path and its bytes; `none` models a `PermissionError` on open
(the file is silently skipped). Paths, patterns, bytes and hashes are
abstract types. -/
structure WFile (P D : Type) where
  path : P
  data : Option D
deriving Repr, DecidableEq

/-- The ignore check of `DirectoryWatcher.dirty` (blogger.py lines 64-72):
a file is skipped when any `fnmatch` of its path string against an ignore
pattern succeeds (an empty pattern list skips nothing, matching the falsy
`if self.ignore_patterns:` guard). -/
def skipFile {P Q : Type} (fnmatch : P → Q → Bool) (ignore : List Q) (p : P) : Bool :=
  ignore.any fun pat => fnmatch p pat

/-- A file that is neither ignored nor unreadable: its hash is recorded. -/
def trackedFile {P Q D : Type} (fnmatch : P → Q → Bool) (ignore : List Q)
    (f : WFile P D) : Bool :=
  !skipFile fnmatch ignore f.path && f.data.isSome

/-- The loop body of `DirectoryWatcher.dirty` (blogger.py lines 61-82):
`snap` is `self.path_hash` (updated destructively as the loop runs), the
accumulator `d` is the local `dirty` flag, and
`d || (snap f.path ≠ some h)` is line 80's
`dirty = dirty or name not in self.path_hash or self.path_hash[name] != h`. -/
def dirtyLoop {P Q D H : Type} [DecidableEq P] [DecidableEq H]
    (md5 : D → H) (fnmatch : P → Q → Bool) (ignore : List Q) :
    List (WFile P D) → (P → Option H) → Bool → Bool × (P → Option H)
  | [], snap, d => (d, snap)
  | f :: rest, snap, d =>
    if skipFile fnmatch ignore f.path then
      dirtyLoop md5 fnmatch ignore rest snap d
    else
      match f.data with
      | none => dirtyLoop md5 fnmatch ignore rest snap d
      | some bytes =>
        dirtyLoop md5 fnmatch ignore rest
          (fun q => if q = f.path then some (md5 bytes) else snap q)
          (d || decide (snap f.path ≠ some (md5 bytes)))

/-- `DirectoryWatcher.dirty()`: the returned flag and the updated snapshot. -/
def dirty {P Q D H : Type} [DecidableEq P] [DecidableEq H]
    (md5 : D → H) (fnmatch : P → Q → Bool) (ignore : List Q)
    (files : List (WFile P D)) (snap : P → Option H) : Bool × (P → Option H) :=
  dirtyLoop md5 fnmatch ignore files snap false

/-- Replacing the bytes of the file at path `p` (a single edit between two
`dirty()` calls). -/
def editFile {P D : Type} [DecidableEq P] (files : List (WFile P D)) (p : P)
    (b' : D) : List (WFile P D) :=
  files.map fun f => if f.path = p then ⟨f.path, some b'⟩ else f

/-- The behaviour claimed for `DirectoryWatcher.dirty` on one tree of files
(`p` is the path of the file later edited to bytes `b'`): the flag is true
iff some tracked file is new or hashes differently from the prior snapshot;
the snapshot is updated to the current hashes; two consecutive calls with no
intervening change both return false; after a single tracked file's bytes
change, the next call returns true exactly once, then false again. -/
def DirtySpec {P Q D H : Type} [DecidableEq P] [DecidableEq H]
    (md5 : D → H) (fnmatch : P → Q → Bool) (ignore : List Q)
    (files : List (WFile P D)) (snap : P → Option H) (p : P) (b' : D) : Prop :=
  ((dirty md5 fnmatch ignore files snap).1 = true ↔
    ∃ f ∈ files, skipFile fnmatch ignore f.path = false ∧
      ∃ d, f.data = some d ∧ snap f.path ≠ some (md5 d)) ∧
  (∀ f ∈ files, ∀ d, skipFile fnmatch ignore f.path = false → f.data = some d →
    (dirty md5 fnmatch ignore files snap).2 f.path = some (md5 d)) ∧
  (∀ q, (∀ f ∈ files, trackedFile fnmatch ignore f = true → f.path ≠ q) →
    (dirty md5 fnmatch ignore files snap).2 q = snap q) ∧
  (dirty md5 fnmatch ignore files
    (dirty md5 fnmatch ignore files snap).2).1 = false ∧
  (dirty md5 fnmatch ignore files
    (dirty md5 fnmatch ignore files
      (dirty md5 fnmatch ignore files snap).2).2).1 = false ∧
  (dirty md5 fnmatch ignore (editFile files p b')
    (dirty md5 fnmatch ignore files snap).2).1 = true ∧
  (dirty md5 fnmatch ignore (editFile files p b')
    (dirty md5 fnmatch ignore (editFile files p b')
      (dirty md5 fnmatch ignore files snap).2).2).1 = false

mutual
/-- A file-system tree: a file with text content, or a directory. -/
inductive FTree where
  | file (nm : List Char) (content : List Char)
  | dir (nm : List Char) (children : FList)

/-- A list of sibling trees (mutual with `FTree` so the scanner can recurse
structurally). -/
inductive FList where
  | nil
  | cons (t : FTree) (ts : FList)
end

/-- The base name of a tree node. -/
def FTree.name : FTree → List Char
  | FTree.file nm _ => nm
  | FTree.dir nm _ => nm

mutual
/-- `read_dir(d, dic, root, file_ext, serializer)` of `Main.compile`
(blogger.py lines 199-213). `path` is the path of the directory `d` itself
(as a segment list); keys are paths relative to `root`; `globMatch`
abstracts the `fnmatch`-style matching that `d.rglob(pattern)` performs on a
direct child's name, so a child is skipped when some ignore pattern matches
it. `read_dir` on a non-directory is the failing `assert(d.is_dir())`, and
`read_file` with `root=None` calls the nonexistent `f.absolue()` and raises
`AttributeError`; both are modelled as `Except.error ()` (an aborted
compile). Note line 213 of the source drops `root` in the recursive call,
which the model mirrors by recursing with `none`. -/
def read_dir {τ : Type} (globMatch : List Char → List Char → Bool)
    (ignore : List (List Char)) (file_ext : Option (List Char))
    (deserializer : List Char → τ) :
    FTree → List (List Char) → Option (List (List Char)) →
    Except Unit (List (List (List Char) × τ))
  | FTree.file _ _, _, _ => Except.error ()
  | FTree.dir _ cs, path, root =>
    read_children globMatch ignore file_ext deserializer cs path root

/-- The `for f in d.iterdir()` loop of `read_dir` (blogger.py lines
204-213). -/
def read_children {τ : Type} (globMatch : List Char → List Char → Bool)
    (ignore : List (List Char)) (file_ext : Option (List Char))
    (deserializer : List Char → τ) :
    FList → List (List Char) → Option (List (List Char)) →
    Except Unit (List (List (List Char) × τ))
  | FList.nil, _, _ => Except.ok []
  | FList.cons c rest, path, root =>
    if ignore.any fun pat => globMatch c.name pat then
      read_children globMatch ignore file_ext deserializer rest path root
    else
      match c with
      | FTree.file nm content =>
        if (match file_ext with
            | none => true
            | some e => e.isSuffixOf nm) then
          match root with
          | some r =>
            match read_children globMatch ignore file_ext deserializer
                rest path root with
            | Except.error e => Except.error e
            | Except.ok es =>
              Except.ok (((path ++ [nm]).drop r.length, deserializer content) :: es)
          | none => Except.error ()
        else read_children globMatch ignore file_ext deserializer rest path root
      | FTree.dir nm cs2 =>
        match read_children globMatch ignore file_ext deserializer cs2
            (path ++ [nm]) none with
        | Except.error e => Except.error e
        | Except.ok es1 =>
          match read_children globMatch ignore file_ext deserializer
              rest path root with
          | Except.error e => Except.error e
          | Except.ok es2 => Except.ok (es1 ++ es2)
end

/-- A glob matcher that never matches (no ignore patterns are used by the
C5 scenario, so any matcher works). -/
def gmNever : List Char → List Char → Bool := fun _ _ => false

/-- A posts tree holding one nested subdirectory `s` with a file `a.md`. -/
def nestedPosts : FTree :=
  FTree.dir ['p'] (FList.cons
    (FTree.dir ['s'] (FList.cons (FTree.file ['a', '.', 'm', 'd'] ['h']) FList.nil))
    FList.nil)

theorem pySplit3_ne_nil (l : List Char) : pySplit3 l ≠ [] := by
  rw [pySplit3.eq_def]
  split
  · simp
  · split <;> simp
  · simp

theorem countDashes_cons (x : Char) (xs : List Char)
    (h : ∀ rest, x = '-' → xs = '-' :: '-' :: rest → False) :
    countDashes (x :: xs) = countDashes xs := by
  conv_lhs => rw [countDashes.eq_def]
  split
  · next rest heq =>
    rw [List.cons.injEq] at heq
    obtain ⟨h1, h2⟩ := heq
    exact (h rest h1 h2).elim
  · next y ys heq =>
    rw [List.cons.injEq] at heq
    obtain ⟨h1, h2⟩ := heq
    rw [h2]
  · next heq => exact absurd heq (by simp)

theorem pySplit3_cons (x : Char) (xs : List Char)
    (h : ∀ rest, x = '-' → xs = '-' :: '-' :: rest → False) :
    pySplit3 (x :: xs) =
      match pySplit3 xs with
      | [] => [[x]]
      | s :: ss => (x :: s) :: ss := by
  conv_lhs => rw [pySplit3.eq_def]
  split
  · next rest heq =>
    rw [List.cons.injEq] at heq
    obtain ⟨h1, h2⟩ := heq
    exact (h rest h1 h2).elim
  · next y ys heq =>
    rw [List.cons.injEq] at heq
    obtain ⟨h1, h2⟩ := heq
    rw [h1, h2]
  · next heq => exact absurd heq (by simp)

theorem pySplit3_length (l : List Char) :
    (pySplit3 l).length = countDashes l + 1 := by
  induction l using pySplit3.induct with
  | case1 rest ih => simp [pySplit3, countDashes, ih]
  | case2 x xs h ih ih1 => exact absurd ih (pySplit3_ne_nil xs)
  | case3 x xs h s ss heq ih1 =>
    rw [pySplit3_cons x xs h, countDashes_cons x xs h, heq]
    rw [heq] at ih1
    simpa using ih1
  | case4 => simp [pySplit3, countDashes]

theorem joinSep_pySplit3 (l : List Char) :
    joinSep ['-', '-', '-'] (pySplit3 l) = l := by
  induction l using pySplit3.induct with
  | case1 rest ih =>
    rw [pySplit3]
    obtain ⟨s, ss, heq⟩ : ∃ s ss, pySplit3 rest = s :: ss := by
      cases hs : pySplit3 rest with
      | nil => exact absurd hs (pySplit3_ne_nil rest)
      | cons s ss => exact ⟨s, ss, rfl⟩
    rw [heq] at ih ⊢
    simpa [joinSep] using ih
  | case2 x xs h ih ih1 => exact absurd ih (pySplit3_ne_nil xs)
  | case3 x xs h s ss heq ih1 =>
    rw [pySplit3_cons x xs h, heq]
    rw [heq] at ih1
    cases ss with
    | nil => simpa [joinSep] using ih1
    | cons t ts => simpa [joinSep] using ih1
  | case4 => simp [pySplit3, joinSep]

/-- Claim C1 (counterexample): the claim as stated is false. In `a---b---c`
the delimiter `---` occurs exactly 2 times (so at most 2 times), yet
`serialize_post` produces front matter `b` (not absent) and body `c`
(not the input verbatim), because the source takes the front-matter branch
as soon as the split yields more than two segments, i.e. already at two
delimiter occurrences. -/
theorem c1_claim_false_at_two_occurrences :
    ¬ (countDashes exTwoDashes ≤ 2 →
       (serialize_post loadFail exTwoDashes).front_matter = none ∧
       (serialize_post loadFail exTwoDashes).body_text = exTwoDashes) := by
  decide

/-- Claim C1 (amended): for every content text in which the literal delimiter
`---` occurs at most 1 time, `serialize_post` produces a post whose front
matter is absent (none) and whose body text equals the input text verbatim. -/
theorem c1_le_one_occurrence_front_matter_absent
    (load_all : List Char → Except String Metadata) (t : List Char)
    (h : countDashes t ≤ 1) :
    (serialize_post load_all t).front_matter = none ∧
    (serialize_post load_all t).body_text = t := by
  have hl := pySplit3_length t
  have hc : ¬ (pySplit3 t).length > 2 := by omega
  simp [serialize_post, hc]

/-- Witness for the amended C1 at the concrete input `ab`. -/
theorem c1_le_one_occurrence_front_matter_absent_witness :
    countDashes ['a', 'b'] ≤ 1 ∧
    ((serialize_post loadFail ['a', 'b']).front_matter = none ∧
     (serialize_post loadFail ['a', 'b']).body_text = ['a', 'b']) :=
  ⟨by decide, c1_le_one_occurrence_front_matter_absent loadFail ['a', 'b'] (by decide)⟩

/-- Claim C2: `serialize_post` splits the text on the literal `---`
(the segments of `pySplit3` rejoin with the delimiter to the input, so it is
a genuine split); if the split yields more than two segments, the front
matter is segment 1 and the body text is the concatenation, in order, of all
segments from index 2 onward; otherwise front matter is absent and body text
is the whole input. -/
theorem c2_serialize_post_segments
    (load_all : List Char → Except String Metadata) (t : List Char) :
    joinSep ['-', '-', '-'] (pySplit3 t) = t ∧
    (serialize_post load_all t).front_matter =
      (if (pySplit3 t).length > 2 then some ((pySplit3 t).getD 1 []) else none) ∧
    (serialize_post load_all t).body_text =
      (if (pySplit3 t).length > 2 then ((pySplit3 t).drop 2).flatten else t) := by
  refine ⟨joinSep_pySplit3 t, ?_, ?_⟩ <;> rfl

/-- Claim C9: if YAML parsing of the original undivided text raises, the
post's metadata is absent (none) and the error is not propagated: the
embedding of `serialize_post` is a total function into `Post` (never into an
error state), and the remaining fields are still produced as usual. -/
theorem c9_yaml_error_yields_metadata_none
    (load_all : List Char → Except String Metadata) (t : List Char)
    (e : String) (he : load_all t = Except.error e) :
    (serialize_post load_all t).metadata = none ∧
    (serialize_post load_all t).source_text = t := by
  refine ⟨?_, rfl⟩
  simp [serialize_post, he]

/-- Witness for C9 at the concrete input `a` with the always-raising loader. -/
theorem c9_yaml_error_yields_metadata_none_witness :
    loadFail ['a'] = Except.error "err" ∧
    ((serialize_post loadFail ['a']).metadata = none ∧
     (serialize_post loadFail ['a']).source_text = ['a']) :=
  ⟨rfl, c9_yaml_error_yields_metadata_none loadFail ['a'] "err" rfl⟩

/-- Claim C8 (counterexample): the claim as stated is false. For the title
`a|b` the computed slug is `a|b` itself: the vertical bar survives
`re.sub(r"[^\w|^\-\s]", "", ...)` because `|` is (inadvertently) inside the
negated character class, so the slug contains a character that is neither a
word character nor a hyphen. -/
theorem c8_claim_false_at_pipe :
    slugify ['a', '|', 'b'] = ['a', '|', 'b'] ∧
    '|' ∈ slugify ['a', '|', 'b'] ∧
    isWordChar '|' = false ∧ '|' ≠ '-' := by
  decide

/-- Claim C8 (amended): the slug is computed by lowercasing, replacing
spaces with hyphens, and removing every character that is not a word
character, vertical bar, caret, hyphen, or whitespace — so the resulting
slug contains only word characters, vertical bars, carets, hyphens, and
non-space whitespace characters (no literal spaces remain, since spaces
were replaced by hyphens first). -/
theorem c8_slug_contains_only_kept_class (title : List Char) (c : Char)
    (hc : c ∈ slugify title) :
    keptBySub c = true ∧ c ≠ ' ' := by
  unfold slugify at hc
  have h1 := List.of_mem_filter hc
  have h2 : c ∈ pyReplace ' ' '-' (title.map Char.toLower) :=
    List.mem_of_mem_filter hc
  refine ⟨h1, ?_⟩
  unfold pyReplace at h2
  rw [List.mem_map] at h2
  obtain ⟨x, _, hx⟩ := h2
  intro h'
  subst h'
  rcases eq_or_ne x ' ' with hxs | hxs
  · rw [if_pos hxs] at hx
    exact absurd hx (by decide)
  · rw [if_neg hxs] at hx
    exact hxs hx

/-- Witness for the amended C8 at the concrete title `a b`. -/
theorem c8_slug_contains_only_kept_class_witness :
    'a' ∈ slugify ['a', ' ', 'b'] ∧ (keptBySub 'a' = true ∧ 'a' ≠ ' ') :=
  ⟨by decide, c8_slug_contains_only_kept_class ['a', ' ', 'b'] 'a' (by decide)⟩

/-- Claim C6: publishing a draft never overwrites an existing file in the
posts directory with the same derived name: if the derived
`{date}-{slugified-title}.md` name already exists, the publish operation
aborts fatally with no file written and the draft not deleted. -/
theorem c6_publish_collision_aborts_with_no_write (existing : List (List Char))
    (d title content : List Char) (delete_answer : Bool)
    (h : derived_filename d title ∈ existing) :
    publish_write existing (derived_filename d title) content delete_answer =
      ⟨[], false, true⟩ := by
  simp [publish_write, h]

/-- Witness for C6: the derived name `2-t.md` already exists. -/
theorem c6_publish_collision_aborts_with_no_write_witness :
    derived_filename ['2'] ['t'] ∈ [['2', '-', 't', '.', 'm', 'd']] ∧
    publish_write [['2', '-', 't', '.', 'm', 'd']] (derived_filename ['2'] ['t'])
      ['x'] true = ⟨[], false, true⟩ :=
  ⟨by decide,
   c6_publish_collision_aborts_with_no_write [['2', '-', 't', '.', 'm', 'd']]
     ['2'] ['t'] ['x'] true (by decide)⟩

theorem toDigitsCore_eq_decDigits (fuel : Nat) :
    ∀ (n : Nat) (ds : List Char), n < fuel →
      Nat.toDigitsCore 10 fuel n ds = decDigits n ++ ds := by
  induction fuel with
  | zero => intro n ds h; omega
  | succ f ih =>
    intro n ds h
    rw [Nat.toDigitsCore]
    by_cases h0 : n / 10 = 0
    · rw [if_pos h0, decDigits, if_pos h0]
      rfl
    · rw [if_neg h0, decDigits, if_neg h0]
      have hd : n / 10 < n := Nat.div_lt_self (by omega) (by omega)
      rw [ih (n / 10) (Nat.digitChar (n % 10) :: ds) (by omega)]
      simp

theorem repr_eq_decDigits (n : Nat) : Nat.repr n = (decDigits n).asString := by
  unfold Nat.repr Nat.toDigits
  rw [toDigitsCore_eq_decDigits (n + 1) n [] (Nat.lt_succ_self n)]
  simp

theorem digitVal_digitChar (d : Nat) (h : d < 10) :
    digitVal (Nat.digitChar d) = d := by
  interval_cases d <;> rfl

theorem decValue_decDigits (n : Nat) : decValue (decDigits n) = n := by
  induction n using Nat.strong_induction_on with
  | _ n ih =>
    rw [decDigits]
    by_cases h0 : n / 10 = 0
    · rw [if_pos h0]
      have : decValue [Nat.digitChar (n % 10)] = n % 10 := by
        simp [decValue, digitVal_digitChar (n % 10) (by omega)]
      omega
    · rw [if_neg h0]
      have hd : n / 10 < n := Nat.div_lt_self (by omega) (by omega)
      have hv : decValue (decDigits (n / 10) ++ [Nat.digitChar (n % 10)]) =
          10 * decValue (decDigits (n / 10)) + digitVal (Nat.digitChar (n % 10)) := by
        simp [decValue, List.foldl_append]
      rw [hv, ih (n / 10) hd, digitVal_digitChar (n % 10) (by omega)]
      omega

theorem nat_repr_injective (m n : Nat) (h : Nat.repr m = Nat.repr n) : m = n := by
  rw [repr_eq_decDigits, repr_eq_decDigits] at h
  have hd : decDigits m = decDigits n := congrArg String.toList h
  have := congrArg decValue hd
  rwa [decValue_decDigits, decValue_decDigits] at this

theorem draft_cand_injective (today title : List Char) :
    Function.Injective (draft_cand today title) := by
  intro a b hab
  cases a with
  | zero =>
    cases b with
    | zero => rfl
    | succ k =>
      exfalso
      simp only [draft_cand, List.append_assoc] at hab
      have h1 := List.append_cancel_left hab
      have h2 := List.append_cancel_left h1
      have h3 := List.append_cancel_left h2
      simp at h3
  | succ j =>
    cases b with
    | zero =>
      exfalso
      simp only [draft_cand, List.append_assoc] at hab
      have h1 := List.append_cancel_left hab
      have h2 := List.append_cancel_left h1
      have h3 := List.append_cancel_left h2
      simp at h3
    | succ k =>
      simp only [draft_cand, List.append_assoc] at hab
      have h1 := List.append_cancel_left hab
      have h2 := List.append_cancel_left h1
      have h3 := List.append_cancel_left h2
      have h4 := List.append_cancel_left h3
      have h5 : natChars (j + 1) = natChars (k + 1) := List.append_cancel_right h4
      have h6 : Nat.repr (j + 1) = Nat.repr (k + 1) := String.ext h5
      have := nat_repr_injective (j + 1) (k + 1) h6
      omega

theorem exists_free_cand (existing : List (List Char)) (today title : List Char) :
    ∃ j, j ≤ existing.length ∧ draft_cand today title j ∉ existing := by
  by_contra hall
  push_neg at hall
  have hsub : ((List.range (existing.length + 1)).map (draft_cand today title))
      ⊆ existing := by
    intro a ha
    rw [List.mem_map] at ha
    obtain ⟨j, hj, rfl⟩ := ha
    rw [List.mem_range] at hj
    exact hall j (by omega)
  have hnd : ((List.range (existing.length + 1)).map (draft_cand today title)).Nodup :=
    (List.nodup_range _).map (draft_cand_injective today title)
  have hle := (List.subperm_of_subset hnd hsub).length_le
  simp at hle

theorem draft_loop_spec (existing : List (List Char)) (today title : List Char) :
    ∀ fuel k0, (∃ j, j < fuel ∧ draft_cand today title (k0 + j) ∉ existing) →
      ∃ k, k0 ≤ k ∧
        draft_loop existing today title fuel k0 = some (draft_cand today title k) ∧
        draft_cand today title k ∉ existing ∧
        ∀ j, k0 ≤ j → j < k → draft_cand today title j ∈ existing := by
  intro fuel
  induction fuel with
  | zero =>
    intro k0 h
    obtain ⟨j, hj, _⟩ := h
    omega
  | succ f ih =>
    intro k0 h
    obtain ⟨j, hj, hfree⟩ := h
    rw [draft_loop]
    by_cases hmem : draft_cand today title k0 ∈ existing
    · rw [if_pos hmem]
      have hj0 : j ≠ 0 := by
        rintro rfl
        exact hfree (by simpa using hmem)
      have hfree' : draft_cand today title ((k0 + 1) + (j - 1)) ∉ existing := by
        rw [show (k0 + 1) + (j - 1) = k0 + j by omega]
        exact hfree
      obtain ⟨k, hk1, hk2, hk3, hk4⟩ := ih (k0 + 1) ⟨j - 1, by omega, hfree'⟩
      refine ⟨k, by omega, hk2, hk3, ?_⟩
      intro i hi1 hi2
      rcases eq_or_lt_of_le hi1 with hi | hi
      · rw [← hi]; exact hmem
      · exact hk4 i (by omega) hi2
    · rw [if_neg hmem]
      exact ⟨k0, Nat.le_refl _, rfl, hmem, fun i h1 h2 => absurd h2 (by omega)⟩

/-- Claim C7: for every drafts-directory state and title, draft creation
writes a front-matter-stamped file whose name is `{today}-{title}.md` for
the first free attempt, appending a numeric suffix in parentheses and
incrementing until a free name is found, so the created file is always
distinct from every pre-existing file (all earlier candidates collide). -/
theorem c7_draft_creation_finds_fresh_name (existing : List (List Char))
    (today title : List Char) :
    ∃ k, draft_create existing today title =
        some (draft_cand today title k, draft_frontmatter today title) ∧
      draft_cand today title k ∉ existing ∧
      ∀ j, j < k → draft_cand today title j ∈ existing := by
  obtain ⟨j, hj, hfree⟩ := exists_free_cand existing today title
  obtain ⟨k, _, h2, h3, h4⟩ := draft_loop_spec existing today title
    (existing.length + 1) 0 ⟨j, by omega, by simpa using hfree⟩
  refine ⟨k, ?_, h3, fun i hi => h4 i (by omega) hi⟩
  rw [draft_create, draft_name, h2]
  rfl

/-- Witness for C7: a concrete drafts directory already holding `2-d.md`. -/
theorem c7_draft_creation_finds_fresh_name_witness :
    ∃ k, draft_create [['2', '-', 'd', '.', 'm', 'd']] ['2'] ['d'] =
        some (draft_cand ['2'] ['d'] k, draft_frontmatter ['2'] ['d']) ∧
      draft_cand ['2'] ['d'] k ∉ [['2', '-', 'd', '.', 'm', 'd']] ∧
      ∀ j, j < k → draft_cand ['2'] ['d'] j ∈ [['2', '-', 'd', '.', 'm', 'd']] :=
  c7_draft_creation_finds_fresh_name [['2', '-', 'd', '.', 'm', 'd']] ['2'] ['d']

theorem mem_aggregate_phase_not_skipped {N S P C : Type} (exts : List (N → Bool))
    (site : S) (posts : List P) (render : N → S → List P → C)
    (templates : List N) (nm : N) (c : C)
    (h : (nm, c) ∈ aggregate_phase exts site posts render templates) :
    should_skip_template exts nm = false := by
  induction templates with
  | nil => simp [aggregate_phase] at h
  | cons t rest ih =>
    rw [aggregate_phase] at h
    by_cases hs : should_skip_template exts t
    · rw [if_pos hs] at h
      exact ih h
    · rw [if_neg hs] at h
      rcases List.mem_cons.mp h with heq | hmem
      · have h1 : nm = t := congrArg Prod.fst heq
        rw [h1]
        simpa using hs
      · exact ih hmem

theorem aggregate_phase_renders {N S P C : Type} (exts : List (N → Bool))
    (site : S) (posts : List P) (render : N → S → List P → C)
    (templates : List N) (nm : N)
    (hmem : nm ∈ templates) (hns : should_skip_template exts nm = false) :
    (nm, render nm site posts) ∈ aggregate_phase exts site posts render templates := by
  induction templates with
  | nil => simp at hmem
  | cons t rest ih =>
    rw [aggregate_phase]
    rcases List.mem_cons.mp hmem with heq | hmem2
    · rw [← heq, if_neg (by simp [hns])]
      exact List.mem_cons_self _ _
    · by_cases hs : should_skip_template exts t
      · rw [if_pos hs]
        exact ih hmem2
      · rw [if_neg hs]
        exact List.mem_cons_of_mem _ (ih hmem2)

/-- Claim C4: in the aggregate phase, for every discovered template, if any
extension instance's `should_skip_template` hook returns true for it, the
pipeline writes no output file for that template; if every extension answers
false (in particular when no extensions exist), the template is rendered
with the site config and the full posts list as context and the result is
written at the template's relative path. -/
theorem c4_aggregate_phase_skip_or_render {N S P C : Type}
    (exts : List (N → Bool)) (site : S) (posts : List P)
    (render : N → S → List P → C) (templates : List N) (nm : N)
    (hmem : nm ∈ templates) :
    (should_skip_template exts nm = true →
      ∀ c, (nm, c) ∉ aggregate_phase exts site posts render templates) ∧
    (should_skip_template exts nm = false →
      (nm, render nm site posts) ∈ aggregate_phase exts site posts render templates) := by
  constructor
  · intro hskip c hc
    have := mem_aggregate_phase_not_skipped exts site posts render templates nm c hc
    rw [hskip] at this
    simp at this
  · intro hns
    exact aggregate_phase_renders exts site posts render templates nm hmem hns

/-- Witness for C4: one skipping extension, templates `0` and `1`; the hook
skips template `0` and lets template `1` render. -/
theorem c4_aggregate_phase_skip_or_render_witness :
    (1 : Nat) ∈ [0, 1] ∧
    ((should_skip_template [fun n => n == 0] (1 : Nat) = true →
      ∀ c, ((1 : Nat), c) ∉
        aggregate_phase [fun n => n == 0] () ([] : List Unit)
          (fun n _ _ => n + 10) [0, 1]) ∧
     (should_skip_template [fun n => n == 0] (1 : Nat) = false →
      ((1 : Nat), (1 : Nat) + 10) ∈
        aggregate_phase [fun n => n == 0] () ([] : List Unit)
          (fun n _ _ => n + 10) [0, 1])) :=
  ⟨by decide,
   c4_aggregate_phase_skip_or_render [fun n => n == 0] () ([] : List Unit)
     (fun n _ _ => n + 10) [0, 1] 1 (by decide)⟩

theorem render_post_metadata_none (renderWithMeta : List Char → Metadata → List Char)
    (renderPlain : List Char → List Char) (mdConvert : List Char → List Char)
    (nm : List Char) (p : Post) (hp : p.metadata = none) :
    render_post renderWithMeta renderPlain mdConvert nm p = Except.error () := by
  simp [render_post, hp, pyContains]

theorem render_post_metadata_some (renderWithMeta : List Char → Metadata → List Char)
    (renderPlain : List Char → List Char) (mdConvert : List Char → List Char)
    (nm : List Char) (p : Post) (m : Metadata) (hp : p.metadata = some m) :
    exceptOk (render_post renderWithMeta renderPlain mdConvert nm p) = true := by
  simp [render_post, hp, pyContains, pyItems, exceptOk]

theorem render_posts_ok_iff (rwm : List Char → Metadata → List Char)
    (rp : List Char → List Char) (mdc : List Char → List Char)
    (posts : List (List Char × Post)) :
    exceptOk (render_posts rwm rp mdc posts) = true ↔
      ∀ e ∈ posts, e.2.metadata ≠ none := by
  induction posts with
  | nil => simp [render_posts, exceptOk]
  | cons e rest ih =>
    obtain ⟨nm, p⟩ := e
    rw [render_posts, List.forall_mem_cons]
    constructor
    · intro h
      cases hr : render_post rwm rp mdc nm p with
      | error e2 =>
        rw [hr] at h
        exact absurd h (by simp [exceptOk])
      | ok r =>
        cases hrs : render_posts rwm rp mdc rest with
        | error e3 =>
          rw [hr, hrs] at h
          exact absurd h (by simp [exceptOk])
        | ok rs =>
          refine ⟨?_, ih.mp (by rw [hrs]; rfl)⟩
          intro hpnone
          rw [render_post_metadata_none rwm rp mdc nm p hpnone] at hr
          exact Except.noConfusion hr
    · rintro ⟨h1, h2⟩
      obtain ⟨m, hm⟩ : ∃ m, p.metadata = some m := by
        cases hmm : p.metadata with
        | none => exact absurd hmm h1
        | some m2 => exact ⟨m2, rfl⟩
      have hok := render_post_metadata_some rwm rp mdc nm p m hm
      cases hr : render_post rwm rp mdc nm p with
      | error e2 =>
        rw [hr] at hok
        exact absurd hok (by simp [exceptOk])
      | ok r =>
        have hrest := ih.mpr h2
        cases hrs : render_posts rwm rp mdc rest with
        | error e3 =>
          rw [hrs] at hrest
          exact absurd hrest (by simp [exceptOk])
        | ok rs =>
          simp [exceptOk]

/-- Claim C10: the per-post render phase raises as soon as it reaches a post
whose metadata is absent (the unguarded `"title" in post.metadata`), so the
per-post phase of a compile cycle completes exactly when every scanned post
has non-absent metadata. -/
theorem c10_compile_requires_metadata
    (renderWithMeta : List Char → Metadata → List Char)
    (renderPlain : List Char → List Char) (mdConvert : List Char → List Char)
    (posts : List (List Char × Post)) :
    (exceptOk (render_posts renderWithMeta renderPlain mdConvert posts) = true ↔
      ∀ e ∈ posts, e.2.metadata ≠ none) ∧
    (∀ nm p, p.metadata = none →
      render_post renderWithMeta renderPlain mdConvert nm p = Except.error ()) :=
  ⟨render_posts_ok_iff renderWithMeta renderPlain mdConvert posts,
   fun nm p hp => render_post_metadata_none renderWithMeta renderPlain mdConvert nm p hp⟩

/-- Witness for C10: two posts, one with metadata and one without. -/
theorem c10_compile_requires_metadata_witness :
    (exceptOk (render_posts (fun b _ => b) id id
        [(['a'], ⟨['x'], none, ['x'], some [("title", "T")], []⟩),
         (['b'], ⟨['y'], none, ['y'], none, []⟩)]) = true ↔
      ∀ e ∈ [(['a'], (⟨['x'], none, ['x'], some [("title", "T")], []⟩ : Post)),
             (['b'], ⟨['y'], none, ['y'], none, []⟩)], e.2.metadata ≠ none) ∧
    (∀ nm p, p.metadata = none →
      render_post (fun b _ => b) id id nm p = Except.error ()) :=
  c10_compile_requires_metadata (fun b _ => b) id id
    [(['a'], ⟨['x'], none, ['x'], some [("title", "T")], []⟩),
     (['b'], ⟨['y'], none, ['y'], none, []⟩)]

theorem dirtyLoop_fst_or {P Q D H : Type} [DecidableEq P] [DecidableEq H]
    (md5 : D → H) (fnmatch : P → Q → Bool) (ignore : List Q) :
    ∀ (files : List (WFile P D)) (snap : P → Option H) (d : Bool),
      (dirtyLoop md5 fnmatch ignore files snap d).1 =
        (d || (dirtyLoop md5 fnmatch ignore files snap false).1) := by
  intro files
  induction files with
  | nil => intro snap d; cases d <;> rfl
  | cons f rest ih =>
    intro snap d
    rw [dirtyLoop, dirtyLoop]
    by_cases hs : skipFile fnmatch ignore f.path = true
    · rw [if_pos hs, if_pos hs]
      exact ih snap d
    · rw [if_neg hs, if_neg hs]
      cases hd : f.data with
      | none => exact ih snap d
      | some bytes =>
        have h1 := ih (fun q => if q = f.path then some (md5 bytes) else snap q)
          (d || decide (snap f.path ≠ some (md5 bytes)))
        have h2 := ih (fun q => if q = f.path then some (md5 bytes) else snap q)
          (false || decide (snap f.path ≠ some (md5 bytes)))
        rw [h1, h2]
        cases d <;> simp

theorem dirtyLoop_snd_untouched {P Q D H : Type} [DecidableEq P] [DecidableEq H]
    (md5 : D → H) (fnmatch : P → Q → Bool) (ignore : List Q) :
    ∀ (files : List (WFile P D)) (snap : P → Option H) (d : Bool) (q : P),
      (∀ f ∈ files, trackedFile fnmatch ignore f = true → f.path ≠ q) →
      (dirtyLoop md5 fnmatch ignore files snap d).2 q = snap q := by
  intro files
  induction files with
  | nil => intro snap d q _; rfl
  | cons f rest ih =>
    intro snap d q h
    rw [dirtyLoop]
    by_cases hs : skipFile fnmatch ignore f.path = true
    · rw [if_pos hs]
      exact ih snap d q fun g hg => h g (List.mem_cons_of_mem f hg)
    · rw [if_neg hs]
      cases hd : f.data with
      | none => exact ih snap d q fun g hg => h g (List.mem_cons_of_mem f hg)
      | some bytes =>
        have hs' : skipFile fnmatch ignore f.path = false := by simpa using hs
        have hne : f.path ≠ q := h f (List.mem_cons_self f rest)
          (by simp [trackedFile, hd, hs'])
        rw [ih _ _ q fun g hg => h g (List.mem_cons_of_mem f hg)]
        have hqne : ¬ q = f.path := fun hq => hne hq.symm
        simp [hqne]

theorem dirtyLoop_snd_tracked {P Q D H : Type} [DecidableEq P] [DecidableEq H]
    (md5 : D → H) (fnmatch : P → Q → Bool) (ignore : List Q) :
    ∀ (files : List (WFile P D)) (snap : P → Option H) (d : Bool)
      (f : WFile P D) (bytes : D),
      (files.map WFile.path).Nodup → f ∈ files →
      skipFile fnmatch ignore f.path = false → f.data = some bytes →
      (dirtyLoop md5 fnmatch ignore files snap d).2 f.path = some (md5 bytes) := by
  intro files
  induction files with
  | nil => intro snap d f bytes _ hf _ _; simp at hf
  | cons g rest ih =>
    intro snap d f bytes hnd hf hskip hdata
    rw [dirtyLoop]
    rcases List.mem_cons.mp hf with rfl | hfr
    · rw [if_neg (by simp [hskip])]
      rw [hdata]
      have hnotin : f.path ∉ rest.map WFile.path := (List.nodup_cons.mp hnd).1
      rw [dirtyLoop_snd_untouched md5 fnmatch ignore rest _ _ f.path ?_]
      · simp
      · intro g' hg' _ heq
        exact hnotin (heq ▸ List.mem_map_of_mem WFile.path hg')
    · have hnd' := (List.nodup_cons.mp hnd).2
      by_cases hs : skipFile fnmatch ignore g.path = true
      · rw [if_pos hs]
        exact ih snap d f bytes hnd' hfr hskip hdata
      · rw [if_neg hs]
        cases hd : g.data with
        | none => exact ih snap d f bytes hnd' hfr hskip hdata
        | some gb => exact ih _ _ f bytes hnd' hfr hskip hdata

theorem dirtyLoop_false_iff {P Q D H : Type} [DecidableEq P] [DecidableEq H]
    (md5 : D → H) (fnmatch : P → Q → Bool) (ignore : List Q) :
    ∀ (files : List (WFile P D)) (snap : P → Option H),
      (files.map WFile.path).Nodup →
      ((dirtyLoop md5 fnmatch ignore files snap false).1 = true ↔
        ∃ f ∈ files, skipFile fnmatch ignore f.path = false ∧
          ∃ b, f.data = some b ∧ snap f.path ≠ some (md5 b)) := by
  intro files
  induction files with
  | nil => intro snap _; simp [dirtyLoop]
  | cons g rest ih =>
    intro snap hnd
    have hgnotin := (List.nodup_cons.mp hnd).1
    have hnd' := (List.nodup_cons.mp hnd).2
    rw [dirtyLoop]
    by_cases hs : skipFile fnmatch ignore g.path = true
    · rw [if_pos hs]
      rw [ih snap hnd']
      constructor
      · rintro ⟨f, hf, hprop⟩
        exact ⟨f, List.mem_cons_of_mem g hf, hprop⟩
      · rintro ⟨f, hf, h1, hrest⟩
        rcases List.mem_cons.mp hf with rfl | hfr
        · simp [h1] at hs
        · exact ⟨f, hfr, h1, hrest⟩
    · have hs' : skipFile fnmatch ignore g.path = false := by simpa using hs
      rw [if_neg hs]
      cases hd : g.data with
      | none =>
        rw [ih snap hnd']
        constructor
        · rintro ⟨f, hf, hprop⟩
          exact ⟨f, List.mem_cons_of_mem g hf, hprop⟩
        · rintro ⟨f, hf, h1, b, hb, hcmp⟩
          rcases List.mem_cons.mp hf with rfl | hfr
          · rw [hd] at hb
            exact Option.noConfusion hb
          · exact ⟨f, hfr, h1, b, hb, hcmp⟩
      | some bytes =>
        rw [dirtyLoop_fst_or md5 fnmatch ignore rest _ _]
        rw [Bool.or_eq_true, ih _ hnd']
        constructor
        · rintro (hc | ⟨f, hf, h1, b, hb, hcmp⟩)
          · refine ⟨g, List.mem_cons_self g rest, hs', bytes, hd, ?_⟩
            simpa using hc
          · have hfp : f.path ≠ g.path := by
              intro heq
              exact hgnotin (heq ▸ List.mem_map_of_mem WFile.path hf)
            refine ⟨f, List.mem_cons_of_mem g hf, h1, b, hb, ?_⟩
            have hcmp' : (if f.path = g.path then some (md5 bytes)
                else snap f.path) ≠ some (md5 b) := hcmp
            rwa [if_neg hfp] at hcmp'
        · rintro ⟨f, hf, h1, b, hb, hcmp⟩
          rcases List.mem_cons.mp hf with rfl | hfr
          · left
            rw [hd] at hb
            obtain rfl : bytes = b := Option.some.inj hb
            simp [hcmp]
          · right
            have hfp : f.path ≠ g.path := by
              intro heq
              exact hgnotin (heq ▸ List.mem_map_of_mem WFile.path hfr)
            refine ⟨f, hfr, h1, b, hb, ?_⟩
            show (if f.path = g.path then some (md5 bytes)
              else snap f.path) ≠ some (md5 b)
            rw [if_neg hfp]
            exact hcmp

theorem dirty_settles {P Q D H : Type} [DecidableEq P] [DecidableEq H]
    (md5 : D → H) (fnmatch : P → Q → Bool) (ignore : List Q)
    (files : List (WFile P D)) (snap : P → Option H)
    (hnd : (files.map WFile.path).Nodup) :
    (dirty md5 fnmatch ignore files (dirty md5 fnmatch ignore files snap).2).1
      = false := by
  simp only [dirty]
  cases hres : (dirtyLoop md5 fnmatch ignore files
      (dirtyLoop md5 fnmatch ignore files snap false).2 false).1 with
  | false => rfl
  | true =>
    obtain ⟨f, hf, hskip, b, hb, hcmp⟩ :=
      (dirtyLoop_false_iff md5 fnmatch ignore files _ hnd).mp hres
    exact (hcmp (dirtyLoop_snd_tracked md5 fnmatch ignore files snap false
      f b hnd hf hskip hb)).elim

theorem editFile_map_path {P D : Type} [DecidableEq P]
    (files : List (WFile P D)) (p : P) (b' : D) :
    (editFile files p b').map WFile.path = files.map WFile.path := by
  rw [editFile, List.map_map]
  apply List.map_congr_left
  intro f _
  by_cases h : f.path = p <;> simp [h]

/-- Claim C3: `DirectoryWatcher.dirty()` returns true iff some tracked
(non-ignored, readable) file is new (absent from the prior snapshot) or its
content hash differs from the prior snapshot; it always updates the snapshot
to the current hashes as a side effect; consequently two consecutive calls
with no intervening change both return false, and after a single tracked
file's bytes change (to bytes with a different hash) the next call returns
true exactly once and then false again absent further edits. The walk
yields each path once, so the snapshot paths are distinct (`hnd`). -/
theorem c3_dirty_change_detection {P Q D H : Type} [DecidableEq P] [DecidableEq H]
    (md5 : D → H) (fnmatch : P → Q → Bool) (ignore : List Q)
    (files : List (WFile P D)) (snap : P → Option H)
    (p : P) (b b' : D) (f0 : WFile P D)
    (hnd : (files.map WFile.path).Nodup)
    (hf0 : f0 ∈ files) (hp : f0.path = p) (hb : f0.data = some b)
    (hskip : skipFile fnmatch ignore p = false) (hh : md5 b' ≠ md5 b) :
    DirtySpec md5 fnmatch ignore files snap p b' := by
  have hnd2 : ((editFile files p b').map WFile.path).Nodup := by
    rw [editFile_map_path]
    exact hnd
  refine ⟨?_, ?_, ?_, ?_, ?_, ?_, ?_⟩
  · exact dirtyLoop_false_iff md5 fnmatch ignore files snap hnd
  · intro f hf d hsk hd
    exact dirtyLoop_snd_tracked md5 fnmatch ignore files snap false f d hnd hf hsk hd
  · intro q hq
    exact dirtyLoop_snd_untouched md5 fnmatch ignore files snap false q hq
  · exact dirty_settles md5 fnmatch ignore files snap hnd
  · exact dirty_settles md5 fnmatch ignore files _ hnd
  · have hm0 : (⟨p, some b'⟩ : WFile P D) ∈ editFile files p b' := by
      have hm := List.mem_map_of_mem
        (fun f => if f.path = p then (⟨f.path, some b'⟩ : WFile P D) else f) hf0
      rw [editFile]
      simpa [hp] using hm
    have hsnap : (dirty md5 fnmatch ignore files snap).2 p = some (md5 b) := by
      have ht := dirtyLoop_snd_tracked md5 fnmatch ignore files snap false f0 b hnd
        hf0 (by rw [hp]; exact hskip) hb
      rw [hp] at ht
      exact ht
    have hne : (dirty md5 fnmatch ignore files snap).2 p ≠ some (md5 b') := by
      rw [hsnap]
      intro hcontra
      exact hh (Option.some.inj hcontra).symm
    exact (dirtyLoop_false_iff md5 fnmatch ignore (editFile files p b')
      (dirty md5 fnmatch ignore files snap).2 hnd2).mpr
      ⟨⟨p, some b'⟩, hm0, hskip, b', rfl, hne⟩
  · exact dirty_settles md5 fnmatch ignore (editFile files p b') _ hnd2

/-- Witness for C3: one file at path 0 with bytes 5 and empty snapshot;
the edit changes the bytes to 7, the hash function is the identity. -/
theorem c3_dirty_change_detection_witness :
    (([⟨0, some 5⟩] : List (WFile Nat Nat)).map WFile.path).Nodup ∧
    (⟨0, some 5⟩ : WFile Nat Nat) ∈ ([⟨0, some 5⟩] : List (WFile Nat Nat)) ∧
    (⟨0, some 5⟩ : WFile Nat Nat).path = 0 ∧
    (⟨0, some 5⟩ : WFile Nat Nat).data = some 5 ∧
    skipFile (fun (_ : Nat) (_ : Unit) => false) [] 0 = false ∧
    id 7 ≠ id 5 ∧
    DirtySpec id (fun (_ : Nat) (_ : Unit) => false) [] [⟨0, some 5⟩]
      (fun _ => none) 0 7 :=
  ⟨by decide, by decide, rfl, rfl, rfl, by decide,
   c3_dirty_change_detection id (fun _ _ => false) [] [⟨0, some 5⟩]
     (fun _ => none) 0 5 7 ⟨0, some 5⟩ (by decide) (by decide) rfl rfl rfl
     (by decide)⟩

/-- Claim C5 (code bug): scanning a directory tree that contains a nested
subdirectory with an included file does not key the nested file relative to
the naming root — it aborts the compile with an exception. The recursive
`read_dir` call on line 213 drops the `root` argument, and `read_file` with
`root=None` then calls the nonexistent `f.absolue()`, raising
`AttributeError`. Here the tree `posts/sub/a.md` (scanned with root
`posts` and filter `.md`) produces the error instead of the entry keyed
`sub/a.md` that the claim (and the spec's intent) describes. -/
theorem c5_nested_scan_raises :
    read_dir gmNever [] (some ['.', 'm', 'd']) (fun s => s) nestedPosts
      [['p']] (some [['p']]) = Except.error () := rfl
